import Mathlib

/-!
Shallow embedding of the modbus_recoder data-acquisition core
(`src/utils/addressValidation.ts`, `src/utils/dataParser.ts`,
`src/components/BatchCollection.tsx`) and proofs about it.

JavaScript features are modelled as follows: machine integers are `Int`
with explicit reductions modulo `2 ^ 32`; JS doubles that the embedded
code actually produces (integers, exact binary32 values, `NaN`, the two
infinities and negative zero) are the type `JSNumber` whose finite
values are exact rationals; fallible host calls (the Tauri transport and
the file sink) are passed in as explicit `Except` outcomes; React state
updates become explicit state-record updates.
-/

namespace Modbus

/-! ## JS 32-bit integer primitives

`toUint32`/`toInt32` are ECMAScript's ToUint32/ToInt32 on integral
doubles; `jsShl16` and `jsOr` are the `<< 16` and `|` operators used by
the decoder, which operate on 32-bit two's-complement values. -/

def toUint32 (n : Int) : Int := n % 4294967296

def toInt32 (n : Int) : Int :=
  let m := toUint32 n
  if m < 2147483648 then m else m - 4294967296

/-- JS `x << 16` for integral `x`: shift of the ToInt32 image, as int32. -/
def jsShl16 (n : Int) : Int := toInt32 (n * 65536)

/-- JS `x | y` for integral `x`, `y`: bitwise or on int32 values. -/
def jsOr (a b : Int) : Int :=
  toInt32 (Int.ofNat (Nat.lor (toUint32 a).toNat (toUint32 b).toNat))

/-- The `(highWord << 16) | lowWord` as the decoder computes it (an int32). -/
def combine32 (hi lo : Int) : Int := jsOr (jsShl16 hi) lo

/-- JS `Math.round`: halves round toward positive infinity. -/
def jsRound (q : ℚ) : Int := ⌊q + 1/2⌋

/-! ## Address-range registry (`src/utils/addressValidation.ts`) -/

/-- The `ManagedAddressRange` from `src/types/modbus.ts`; optional TS fields
become `Option`. -/
structure ManagedAddressRange where
  id : String
  name : Option String
  startAddress : Int
  length : Int
  dataType : String
  description : Option String
  enabled : Option Bool
deriving Repr, DecidableEq

/-- The `ValidationResult` from `src/types/modbus.ts`. -/
structure ValidationResult where
  isValid : Bool
  errors : List String
  warnings : Option (List String)
deriving Repr, DecidableEq

def MIN_HOLDING_REGISTER : Int := 0

def MAX_HOLDING_REGISTER : Int := 65535

def MAX_RANGE_LENGTH : Int := 120

/-- JS string truthiness combined with the whitespace test used for the
name warning: `range.name && range.name.trim().length === 0`. -/
def nameIsBlank (name : Option String) : Bool :=
  match name with
  | none => false
  | some s => s ≠ "" && s.trim.length == 0

/-- The `validateAddressRange` from `src/utils/addressValidation.ts`. -/
def validateAddressRange (range : ManagedAddressRange) : ValidationResult :=
  let errors :=
    (if range.startAddress < MIN_HOLDING_REGISTER then
      ["起始地址不能小于 " ++ toString MIN_HOLDING_REGISTER] else []) ++
    (if range.startAddress > MAX_HOLDING_REGISTER then
      ["起始地址不能大于 " ++ toString MAX_HOLDING_REGISTER] else []) ++
    (if range.length ≤ 0 then ["地址段长度必须大于 0"] else []) ++
    (if range.length > MAX_RANGE_LENGTH then
      ["地址段长度不能超过 " ++ toString MAX_RANGE_LENGTH] else []) ++
    (let endAddress := range.startAddress + range.length - 1
     if endAddress > MAX_HOLDING_REGISTER then
      ["结束地址 (" ++ toString endAddress ++ ") 超出最大地址范围 (" ++
        toString MAX_HOLDING_REGISTER ++ ")"] else [])
  let warnings :=
    (if nameIsBlank range.name then ["地址段名称不能为空字符串"] else []) ++
    (if range.length > 100 then ["地址段长度较大，可能影响读取性能"] else [])
  { isValid := errors.length == 0
    errors := errors
    warnings := if warnings.length > 0 then some warnings else none }

/-- One entry of `OverlapResult.conflicts` from `src/types/modbus.ts`. -/
structure OverlapConflict where
  range1 : ManagedAddressRange
  range2 : ManagedAddressRange
  overlapStart : Int
  overlapEnd : Int
deriving Repr, DecidableEq

/-- The `OverlapResult` from `src/types/modbus.ts`. -/
structure OverlapResult where
  hasOverlap : Bool
  conflicts : List OverlapConflict
deriving Repr, DecidableEq

/-- The body of the inner loop of `detectRangeOverlaps`: the conflict
record pushed for the ordered pair `(range1, range2)`, if any. -/
def pairConflict (range1 range2 : ManagedAddressRange) : Option OverlapConflict :=
  let range1End := range1.startAddress + range1.length - 1
  let range2End := range2.startAddress + range2.length - 1
  let overlapStart := max range1.startAddress range2.startAddress
  let overlapEnd := min range1End range2End
  if overlapStart ≤ overlapEnd then
    some { range1 := range1, range2 := range2
           overlapStart := overlapStart, overlapEnd := overlapEnd }
  else
    none

/-- The double loop `for i; for j > i` of `detectRangeOverlaps`. -/
def overlapScan : List ManagedAddressRange → List OverlapConflict
  | [] => []
  | r :: rest => rest.filterMap (pairConflict r) ++ overlapScan rest

/-- The `detectRangeOverlaps` from `src/utils/addressValidation.ts`: pairwise
scan over the ranges with `enabled !== false`. -/
def detectRangeOverlaps (ranges : List ManagedAddressRange) : OverlapResult :=
  let enabledRanges := ranges.filter (fun range => range.enabled ≠ some false)
  let conflicts := overlapScan enabledRanges
  { hasOverlap := conflicts.length > 0, conflicts := conflicts }

/-- The `calculateTotalAddresses` from `src/utils/addressValidation.ts`. -/
def calculateTotalAddresses (ranges : List ManagedAddressRange) : Int :=
  (ranges.filter (fun range => range.enabled ≠ some false)).foldl
    (fun total range => total + range.length) 0

/-! ## JS numbers produced by the decoder and formatter

The doubles the embedded code manipulates are integers, exact binary32
values, `NaN`, the infinities and negative zero, so finite values are
carried as exact rationals. -/

inductive JSNumber where
  | num (q : ℚ)
  | negZero
  | inf
  | negInf
  | nan
deriving Repr, DecidableEq

/-- The `new DataView` round-trip of `dataParser.ts`: `setUint32(0, bits)`
then `getFloat32(0)`, i.e. IEEE-754 binary32 decoding of `ToUint32 bits`. -/
def decodeFloat32 (int32Bits : Int) : JSNumber :=
  let u : Nat := (toUint32 int32Bits).toNat
  let sign : Nat := u / 2 ^ 31
  let expo : Nat := (u / 2 ^ 23) % 2 ^ 8
  let frac : Nat := u % 2 ^ 23
  if expo = 255 then
    if frac = 0 then (if sign = 1 then .negInf else .inf) else .nan
  else if expo = 0 then
    if frac = 0 then (if sign = 1 then .negZero else .num 0)
    else
      let mag : ℚ := (frac : ℚ) / 2 ^ 23 * ((2 : ℚ) ^ (126 : ℕ))⁻¹
      .num (if sign = 1 then -mag else mag)
  else
    let mag : ℚ := (1 + (frac : ℚ) / 2 ^ 23) * (2 : ℚ) ^ ((expo : ℤ) - 127)
    .num (if sign = 1 then -mag else mag)

/-- JS `String.prototype.padStart` with a one-character pad. -/
def padLeft (s : String) (n : Nat) (c : Char) : String :=
  if n ≤ s.length then s else String.mk (List.replicate (n - s.length) c) ++ s

/-- Digits of `n` in the given base, as JS `n.toString(base)` renders a
nonnegative integer (letter digits in lower case). -/
def natDigits (base n : Nat) : String :=
  String.mk (Nat.toDigits base n)

/-- JS `String.prototype.toUpperCase`, per-character; it agrees with the
host on the ASCII strings the formatter's `hex` branch feeds it. -/
def jsToUpperCase (s : String) : String :=
  String.mk (s.data.map Char.toUpper)

/-- Fixed-point rendering of a nonnegative rational with `f` fraction
digits; ECMAScript picks the larger of two equally near integers, i.e.
rounds half up on the magnitude. -/
def fixedOfRat (q : ℚ) (f : Nat) : String :=
  let n : Int := ⌊q * (10 : ℚ) ^ f + 1/2⌋
  let digits := toString n
  if f = 0 then digits
  else
    let digits := padLeft digits (f + 1) '0'
    let k := digits.length - f
    digits.take k ++ "." ++ digits.drop k

/-- JS `Number.prototype.toFixed`. For finite magnitudes at or above
`10 ^ 21` ECMAScript falls back to `ToString` of the double (exponential
notation); that branch is rendered here in fixed point as well — it is
unreachable from every statement proved in this file. -/
def jsToFixed (x : JSNumber) (f : Nat) : String :=
  match x with
  | .nan => "NaN"
  | .inf => "Infinity"
  | .negInf => "-Infinity"
  | .negZero => fixedOfRat 0 f
  | .num q => if q < 0 then "-" ++ fixedOfRat (-q) f else fixedOfRat q f

/-- JS `ToString` of a number. Finite non-integers print via the
shortest-round-trip decimal of the double in JS; every call site
embedded here reaches this function only with integers, `NaN`, the
infinities or negative zero, so non-integers are rendered in fixed
point with the denominator's decimal expansion truncated at 20 digits. -/
def jsNumberToString (x : JSNumber) : String :=
  match x with
  | .nan => "NaN"
  | .inf => "Infinity"
  | .negInf => "-Infinity"
  | .negZero => "0"
  | .num q => if q.den = 1 then toString q.num else jsToFixed (.num q) 20

/-- JS `Math.floor` on a number. -/
def jsFloor : JSNumber → JSNumber
  | .num q => .num ⌊q⌋
  | .negZero => .negZero
  | .inf => .inf
  | .negInf => .negInf
  | .nan => .nan

/-- JS `Math.abs` on a number. -/
def jsAbs : JSNumber → JSNumber
  | .num q => .num |q|
  | .negZero => .num 0
  | .inf => .inf
  | .negInf => .inf
  | .nan => .nan

/-- JS `n.toString(base)` for the values reaching the `hex`/`bin`
branches of the formatter (outputs of `Math.abs ∘ Math.floor`, so the
negative-sign case is unreachable there): `NaN` and the infinities
render as their usual names whatever the radix. -/
def jsToStringRadix (base : Nat) (x : JSNumber) : String :=
  match x with
  | .nan => "NaN"
  | .inf => "Infinity"
  | .negInf => "-Infinity"
  | .negZero => "0"
  | .num q =>
    if q < 0 then "-" ++ natDigits base (-q.num).toNat
    else natDigits base q.num.toNat

/-- JS `Number.isInteger`. -/
def jsIsInteger : JSNumber → Bool
  | .num q => q.den == 1
  | .negZero => true
  | _ => false

/-- JS `x < 0` on a number (`NaN` comparisons are false; `-0 < 0` is false). -/
def jsLtZero : JSNumber → Bool
  | .num q => q < 0
  | .negInf => true
  | _ => false

/-! ## Register decoder (`parseModbusData` in `src/utils/dataParser.ts`) -/

/-- The `ParsedData` from `src/types/modbus.ts` (the decoder only ever puts
numbers in `parsedValue`, so it is a `JSNumber` here). -/
structure ParsedData where
  address : Int
  rawValue : Int
  parsedValue : JSNumber
  displayValue : String
  dataType : String
  success : Bool
  error : Option String
deriving Repr, DecidableEq

/-- The `uint32` loop: `for (i = 0; i < len; i += 2)` guarded by
`i + 1 < len`, so a trailing unpaired word produces nothing. -/
def uint32Loop (dataType : String) (startAddress : Int) : Nat → List Int → List ParsedData
  | _, [] => []
  | _, [_] => []
  | i, highWord :: lowWord :: rest =>
    let uint32Value := combine32 highWord lowWord
    { address := startAddress + (i : Int)
      rawValue := combine32 highWord lowWord
      parsedValue := .num (toUint32 uint32Value : Int)
      displayValue := toString (toUint32 uint32Value)
      dataType := dataType
      success := true
      error := none } :: uint32Loop dataType startAddress (i + 2) rest

/-- The `int32` loop of `parseModbusData`. -/
def int32Loop (dataType : String) (startAddress : Int) : Nat → List Int → List ParsedData
  | _, [] => []
  | _, [_] => []
  | i, highWord :: lowWord :: rest =>
    let int32Value := combine32 highWord lowWord
    { address := startAddress + (i : Int)
      rawValue := int32Value
      parsedValue := .num int32Value
      displayValue := toString int32Value
      dataType := dataType
      success := true
      error := none } :: int32Loop dataType startAddress (i + 2) rest

/-- The `float32` loop of `parseModbusData`. -/
def float32Loop (dataType : String) (startAddress : Int) : Nat → List Int → List ParsedData
  | _, [] => []
  | _, [_] => []
  | i, highWord :: lowWord :: rest =>
    let int32Bits := combine32 highWord lowWord
    let floatValue := decodeFloat32 int32Bits
    { address := startAddress + (i : Int)
      rawValue := int32Bits
      parsedValue := floatValue
      displayValue := jsToFixed floatValue 2
      dataType := dataType
      success := true
      error := none } :: float32Loop dataType startAddress (i + 2) rest

/-- The `parseModbusData` from `src/utils/dataParser.ts`. The `default`
switch case throws and the surrounding `try`/`catch` turns the throw
into the single failed entry, so the embedding returns it directly;
the function never propagates an exception. -/
def parseModbusData (rawData : List Int) (dataType : String) (startAddress : Int) :
    List ParsedData :=
  if dataType = "uint16" then
    rawData.enum.map fun p =>
      { address := startAddress + (p.1 : Int)
        rawValue := p.2
        parsedValue := .num p.2
        displayValue := toString p.2
        dataType := dataType
        success := true
        error := none }
  else if dataType = "int16" then
    rawData.enum.map fun p =>
      let signedValue : Int := if p.2 > 32767 then p.2 - 65536 else p.2
      { address := startAddress + (p.1 : Int)
        rawValue := p.2
        parsedValue := .num signedValue
        displayValue := toString signedValue
        dataType := dataType
        success := true
        error := none }
  else if dataType = "uint32" then
    uint32Loop dataType startAddress 0 rawData
  else if dataType = "int32" then
    int32Loop dataType startAddress 0 rawData
  else if dataType = "float32" then
    float32Loop dataType startAddress 0 rawData
  else
    [{ address := startAddress
       rawValue := rawData.headD 0
       parsedValue := .num 0
       displayValue := "Error"
       dataType := dataType
       success := false
       error := some ("不支持的数据类型: " ++ dataType) }]

/-! ## Value formatter (`formatDisplayValue` in `src/utils/dataParser.ts`) -/

/-- The `number | string` argument type of `formatDisplayValue`. -/
inductive JSValue where
  | str (s : String)
  | num (x : JSNumber)
deriving Repr, DecidableEq

/-- The `DisplayFormat` from `src/types/modbus.ts`. -/
inductive DisplayFormat where
  | dec
  | hex
  | bin
deriving Repr, DecidableEq

/-- The `FormatOptions` from `src/types/modbus.ts`; optional fields default
inside the formatter. -/
structure FormatOptions where
  format : DisplayFormat
  precision : Option Nat := none
  padZeros : Option Bool := none
deriving Repr, DecidableEq

/-- The `isNaN(Number(value))` for a number (`Number` is the identity there;
the string case is short-circuited away by `typeof value === 'string'`). -/
def jsNumIsNaN : JSNumber → Bool
  | .nan => true
  | _ => false

/-- The `formatDisplayValue` from `src/utils/dataParser.ts`. The trailing
`try`/`catch` of the source can only return `'Format Error'` if one of
the built-in conversions throws, which none of them does; the embedding
is total, so the catch branch is dropped. -/
def formatDisplayValue (value : JSValue) (options : FormatOptions) : String :=
  match value with
  | .str s => s
  | .num numValue =>
    if jsNumIsNaN numValue then jsNumberToString numValue
    else
      let precision := options.precision.getD 2
      let padZeros := options.padZeros.getD false
      match options.format with
      | .dec =>
        if jsIsInteger numValue then jsNumberToString numValue
        else jsToFixed numValue precision
      | .hex =>
        let hexValue := jsToUpperCase (jsToStringRadix 16 (jsAbs (jsFloor numValue)))
        let pre := if jsLtZero numValue then "-0x" else "0x"
        pre ++ (if padZeros then padLeft hexValue 4 '0' else hexValue)
      | .bin =>
        let binValue := jsToStringRadix 2 (jsAbs (jsFloor numValue))
        let pre := if jsLtZero numValue then "-0b" else "0b"
        pre ++ (if padZeros then padLeft binValue 16 '0' else binValue)

/-! ## Result validator (`validateReadResult` in `src/utils/dataParser.ts`) -/

/-- The `AddressReadResult` from `src/types/modbus.ts`. `raw_value` is
declared `number` but arrives from the backend as untyped JSON, and the
validator defends against a non-number with a `typeof` test, so it is
`Option Int` here with `none` standing for a non-number. -/
structure AddressReadResult where
  address : Int
  raw_value : Option Int
  parsed_value : String
  timestamp : String
  success : Bool
  error : Option String
  data_type : String
deriving Repr, DecidableEq

/-- The `BatchReadResult` from `src/types/modbus.ts`. -/
structure BatchReadResult where
  results : List AddressReadResult
  total_count : Int
  success_count : Int
  failed_count : Int
  timestamp : String
  duration_ms : Int
deriving Repr, DecidableEq

/-- JS falsiness of an optional string (`undefined` or `''`). -/
def jsFalsyOptStr : Option String → Bool
  | none => true
  | some s => s == ""

/-- The fatal low-success-rate message of `validateReadResult`. -/
def lowRateError (successRate : ℚ) : String :=
  "数据成功率过低: " ++ jsToFixed (.num successRate) 1 ++ "%"

/-- The advisory low-success-rate message of `validateReadResult`. -/
def lowRateWarning (successRate : ℚ) : String :=
  "数据成功率偏低: " ++ jsToFixed (.num successRate) 1 ++ "%"

/-- The errors the `forEach` data-quality loop of `validateReadResult`
pushes for entry `item` at position `index` (the `typeof` half of the
address test cannot fire in the embedding, where `address` is an
integer by type). -/
def entryErrors (index : Nat) (item : AddressReadResult) : List String :=
  (if item.address < 0 then
    ["第" ++ toString (index + 1) ++ "条数据地址无效: " ++ toString item.address]
   else []) ++
  (if item.success = true ∧ item.raw_value = none then
    ["第" ++ toString (index + 1) ++ "条数据原始值类型错误"]
   else [])

/-- The warnings the same loop pushes. -/
def entryWarnings (index : Nat) (item : AddressReadResult) : List String :=
  if item.success = false ∧ jsFalsyOptStr item.error = true then
    ["第" ++ toString (index + 1) ++ "条数据失败但未提供错误信息"]
  else []

/-- The success rate `validateReadResult` computes:
`actualTotal > 0 ? (actualSuccessCount / actualTotal) * 100 : 0`. -/
def actualSuccessRate (result : BatchReadResult) : ℚ :=
  if result.results.length > 0 then
    (((result.results.filter (·.success)).length : ℚ) / (result.results.length : ℚ)) * 100
  else 0

/-- The return shape of `validateReadResult`. -/
structure ReadValidation where
  isValid : Bool
  errors : List String
  warnings : List String
  summary : String
deriving Repr, DecidableEq

/-- The `validateReadResult` from `src/utils/dataParser.ts`. `dateValid`
models the host test `!isNaN(new Date(s).getTime())`. The two early
returns for a `null` batch and a non-array `results` field are
unrepresentable in the typed embedding. -/
def validateReadResult (dateValid : String → Bool) (result : BatchReadResult) :
    ReadValidation :=
  let actualTotal : Nat := result.results.length
  let actualSuccessCount : Nat := (result.results.filter (·.success)).length
  let actualFailedCount : Nat := (result.results.filter (fun r => !r.success)).length
  let countWarnings : List String :=
    (if result.total_count ≠ (actualTotal : Int) then
      ["统计数据不一致: 声明" ++ toString result.total_count ++ "条，实际" ++
        toString actualTotal ++ "条"] else []) ++
    (if result.success_count ≠ (actualSuccessCount : Int) then
      ["成功统计不一致: 声明" ++ toString result.success_count ++ "条，实际" ++
        toString actualSuccessCount ++ "条"] else []) ++
    (if result.failed_count ≠ (actualFailedCount : Int) then
      ["失败统计不一致: 声明" ++ toString result.failed_count ++ "条，实际" ++
        toString actualFailedCount ++ "条"] else [])
  let entryErrs := (result.results.enum.map fun p => entryErrors p.1 p.2).flatten
  let entryWarns := (result.results.enum.map fun p => entryWarnings p.1 p.2).flatten
  let successRate : ℚ := actualSuccessRate result
  let rateErrors := if successRate < 50 then [lowRateError successRate] else []
  let rateWarnings :=
    if successRate < 50 then []
    else if successRate < 80 then [lowRateWarning successRate] else []
  let tsWarnings :=
    if result.timestamp = "" then ["缺少时间戳信息"]
    else if dateValid result.timestamp then [] else ["时间戳格式无效"]
  let durWarnings :=
    if result.duration_ms > 5000 then
      ["读取耗时过长: " ++ toString result.duration_ms ++ "ms"] else []
  let errors := entryErrs ++ rateErrors
  let warnings := countWarnings ++ entryWarns ++ rateWarnings ++ tsWarnings ++ durWarnings
  let isValid := errors.length == 0
  { isValid := isValid
    errors := errors
    warnings := warnings
    summary :=
      if isValid then
        "验证通过: " ++ toString actualSuccessCount ++ "/" ++ toString actualTotal ++
          " 条数据成功，耗时 " ++ toString result.duration_ms ++ "ms"
      else
        "验证失败: " ++ toString errors.length ++ " 个错误，" ++
          toString warnings.length ++ " 个警告" }

/-- The consistent two-entry batch the repository's own test suite
calls `createValidBatchResult` (success rate 50%). -/
def sampleBatch : BatchReadResult :=
  { results :=
      [{ address := 1000, raw_value := some 123, parsed_value := "123"
         timestamp := "2025-09-09T11:00:00Z", success := true
         error := none, data_type := "uint16" },
       { address := 1001, raw_value := some 0, parsed_value := ""
         timestamp := "2025-09-09T11:00:00Z", success := false
         error := some "读取超时", data_type := "uint16" }]
    total_count := 2, success_count := 1, failed_count := 1
    timestamp := "2025-09-09T11:00:00Z", duration_ms := 1000 }

/-! ## Batch collection scheduler (`src/components/BatchCollection.tsx`)

React state updates become explicit record updates; the two fallible
host calls of a cycle (the Tauri transport read and the file append)
are passed in as `Except` outcomes; every host call the component
issues is recorded as a `SinkEvent` so that theorems can talk about
what reached the sink. -/

/-- The `CollectionSettings` from `BatchCollection.tsx`. -/
structure CollectionSettings where
  interval : Int
  format : DisplayFormat
  maxRecords : Nat
  outputFilePath : Option String
deriving Repr, DecidableEq

/-- The `collectionStats` state record. -/
structure CollectionStats where
  totalCollections : Int
  successfulReads : Int
  failedReads : Int
  averageTime : Int
deriving Repr, DecidableEq

/-- The component state touched by the collection logic. -/
structure CollectionState where
  isRunning : Bool
  error : Option String
  currentResult : Option BatchReadResult
  collectionHistory : List BatchReadResult
  collectionStats : CollectionStats
  timerArmed : Bool
deriving Repr, DecidableEq

/-- Host calls the component issues via `invoke`: CSV-header
initialization, the combined range read (carrying the
`{start, count}` pairs and format of the request it builds), and the
file append. -/
inductive HostEvent where
  | initializeCsv (filePath : Option String) (addressRanges : List ManagedAddressRange)
  | readRanges (ranges : List (Int × Int)) (format : DisplayFormat)
  | appendData (filePath : Option String) (data : BatchReadResult)
deriving Repr, DecidableEq

/-- The `validateSettings` from `BatchCollection.tsx` (the enabled ranges
are computed by the component as `addressRanges.filter(enabled !== false)`). -/
def validateSettings (enabledRanges : List ManagedAddressRange)
    (settings : CollectionSettings) : Option String :=
  if enabledRanges.length = 0 then
    some "没有启用的地址范围，请在地址管理中启用至少一个范围"
  else if settings.interval < 10 then
    some "采集间隔不能少于10毫秒"
  else if jsFalsyOptStr settings.outputFilePath then
    some "请先选择输出文件路径"
  else
    none

/-- The `performSingleCollection` from `BatchCollection.tsx`. `readOutcome`
is the result of `invoke('read_modbus_ranges')` on the combined request
built from `enabledRanges`, `appendOutcome` of
`invoke('append_data_to_file')`; a rejection of either is caught by the
surrounding `try`/`catch`. The append call is issued as soon as the
read resolves — the function consults no validator in between. -/
def performSingleCollection (settings : CollectionSettings)
    (enabledRanges : List ManagedAddressRange)
    (readOutcome : Except String BatchReadResult)
    (appendOutcome : Except String Unit)
    (st : CollectionState) :
    CollectionState × List HostEvent × Option BatchReadResult :=
  if jsFalsyOptStr settings.outputFilePath then
    (st, [], none)
  else
    let request := enabledRanges.map fun range => (range.startAddress, range.length)
    let readEvent := HostEvent.readRanges request settings.format
    match readOutcome with
    | .error err => ({ st with error := some ("采集失败: " ++ err) }, [readEvent], none)
    | .ok result =>
      match appendOutcome with
      | .error err =>
        ({ st with error := some ("采集失败: " ++ err) },
         [readEvent, HostEvent.appendData settings.outputFilePath result], none)
      | .ok _ =>
        let prev := st.collectionStats
        let stats :=
          { totalCollections := prev.totalCollections + 1
            successfulReads := prev.successfulReads + result.success_count
            failedReads := prev.failedReads + result.failed_count
            averageTime :=
              jsRound
                (((prev.averageTime * prev.totalCollections + result.duration_ms : Int) : ℚ) /
                  ((prev.totalCollections + 1 : Int) : ℚ)) }
        ({ st with
            currentResult := some result
            collectionHistory := (result :: st.collectionHistory).take settings.maxRecords
            collectionStats := stats },
         [readEvent, HostEvent.appendData settings.outputFilePath result], some result)

/-- The `startCollection` from `BatchCollection.tsx`: settings validation,
CSV-header initialization, one synchronous first cycle, then the
repeating timer is armed. -/
def startCollection (addressRanges : List ManagedAddressRange)
    (settings : CollectionSettings)
    (initOutcome : Except String Unit)
    (readOutcome : Except String BatchReadResult)
    (appendOutcome : Except String Unit)
    (st : CollectionState) : CollectionState × List HostEvent :=
  let enabledRanges := addressRanges.filter (fun range => range.enabled ≠ some false)
  match validateSettings enabledRanges settings with
  | some validationError => ({ st with error := some validationError }, [])
  | none =>
    let st := { st with error := none, isRunning := true }
    match initOutcome with
    | .error _ =>
      ({ st with isRunning := false },
       [HostEvent.initializeCsv settings.outputFilePath enabledRanges])
    | .ok _ =>
      let (st, events, _) :=
        performSingleCollection settings enabledRanges readOutcome appendOutcome st
      ({ st with timerArmed := true },
       HostEvent.initializeCsv settings.outputFilePath enabledRanges :: events)

/-- The `stopCollection` from `BatchCollection.tsx`. -/
def stopCollection (st : CollectionState) : CollectionState :=
  { st with isRunning := false, timerArmed := false }

/-! ### Timer loop model

`startCollection` arms `setInterval(async () => { await
performSingleCollection(); }, interval)`. The callback body starts a
new cycle unconditionally — it consults no in-flight flag — so the
event-loop behaviour of the armed timer is captured by counting cycles
that have started and not yet completed: a timer tick always starts
one more cycle, and a cycle completion retires one. -/

structure TimerLoop where
  inFlight : Nat
deriving Repr, DecidableEq

inductive TimerEvent where
  | tick
  | cycleComplete
deriving Repr, DecidableEq

/-- One event-loop step of the armed interval timer: the source
callback has no single-flight guard, so `tick` starts a cycle even
while another is in flight. -/
def timerStep (s : TimerLoop) : TimerEvent → TimerLoop
  | .tick => { inFlight := s.inFlight + 1 }
  | .cycleComplete => { inFlight := s.inFlight - 1 }

def runTimer (s : TimerLoop) (events : List TimerEvent) : TimerLoop :=
  events.foldl timerStep s

/-! ## Concrete inputs used by the claim theorems -/

/-- The range with `startAddress: 0` that the repository's own test
expects `validateAddressRange` to reject. -/
def zeroStartRange : ManagedAddressRange :=
  { id := "test-1", name := some "无效地址段", startAddress := 0, length := 10
    dataType := "uint16", description := none, enabled := some true }

def overlapRangeA : ManagedAddressRange :=
  { id := "range-1", name := some "A", startAddress := 10, length := 5
    dataType := "uint16", description := none, enabled := some true }

def overlapRangeB : ManagedAddressRange :=
  { id := "range-2", name := some "B", startAddress := 12, length := 5
    dataType := "uint16", description := none, enabled := some true }

/-- The batch used to refute C4 as stated: counts match, every read
succeeded (success rate 100%), but one address is negative. -/
def negativeAddressBatch : BatchReadResult :=
  { results :=
      [{ address := -1, raw_value := some 5, parsed_value := "5"
         timestamp := "2025-09-09T11:00:00Z", success := true
         error := none, data_type := "uint16" }]
    total_count := 1, success_count := 1, failed_count := 0
    timestamp := "2025-09-09T11:00:00Z", duration_ms := 100 }

/-- A fully successful two-entry batch with matching counts. -/
def fullSuccessBatch : BatchReadResult :=
  { results :=
      [{ address := 1000, raw_value := some 123, parsed_value := "123"
         timestamp := "2025-09-09T11:00:00Z", success := true
         error := none, data_type := "uint16" },
       { address := 1001, raw_value := some 456, parsed_value := "456"
         timestamp := "2025-09-09T11:00:00Z", success := true
         error := none, data_type := "uint16" }]
    total_count := 2, success_count := 2, failed_count := 0
    timestamp := "2025-09-09T11:00:00Z", duration_ms := 150 }

/-- An all-failed one-entry batch (success rate 0%), fatally invalid
for `validateReadResult`. -/
def allFailedBatch : BatchReadResult :=
  { results :=
      [{ address := 0, raw_value := some 0, parsed_value := ""
         timestamp := "2025-09-09T11:00:00Z", success := false
         error := some "读取超时", data_type := "uint16" }]
    total_count := 1, success_count := 0, failed_count := 1
    timestamp := "2025-09-09T11:00:00Z", duration_ms := 100 }

/-- Settings with an output file selected. -/
def readySettings : CollectionSettings :=
  { interval := 1000, format := .dec, maxRecords := 100
    outputFilePath := some "out.csv" }

/-- The component state before any collection. -/
def initialCollectionState : CollectionState :=
  { isRunning := false, error := none, currentResult := none
    collectionHistory := []
    collectionStats :=
      { totalCollections := 0, successfulReads := 0, failedReads := 0, averageTime := 0 }
    timerArmed := false }

/-! ## Claim theorems -/

/-! ### Supporting lemmas -/

theorem toUint32_nonneg (n : Int) : 0 ≤ toUint32 n :=
  Int.emod_nonneg n (by norm_num)

theorem toUint32_lt (n : Int) : toUint32 n < 4294967296 :=
  Int.emod_lt_of_pos n (by norm_num)

theorem toUint32_toInt32 (n : Int) : toUint32 (toInt32 n) = toUint32 n := by
  unfold toInt32 toUint32
  by_cases h : n % 4294967296 < 2147483648
  · simp [h]
  · simp only [h, if_false]
    omega

theorem toUint32_of_lt (n : Int) (h0 : 0 ≤ n) (h : n < 4294967296) : toUint32 n = n :=
  Int.emod_eq_of_lt h0 h

theorem lor_mul_pow_add (a b i : Nat) (hb : b < 2 ^ i) :
    Nat.lor (2 ^ i * a) b = 2 ^ i * a + b := by
  show (2 ^ i * a) ||| b = 2 ^ i * a + b
  apply Nat.eq_of_testBit_eq
  intro j
  rw [Nat.testBit_lor]
  rw [Nat.testBit_mul_pow_two_add a hb j]
  have h0 := Nat.testBit_mul_pow_two_add (i := i) a (b := 0) (Nat.pos_pow_of_pos i (by norm_num)) j
  rw [Nat.add_zero] at h0
  by_cases h : j < i
  · simp only [if_pos h] at h0 ⊢
    simp [h0, Nat.zero_testBit]
  · simp only [if_neg h] at h0 ⊢
    have hb' : b.testBit j = false := by
      apply Nat.testBit_lt_two_pow
      calc b < 2 ^ i := hb
        _ ≤ 2 ^ j := Nat.pow_le_pow_right (by norm_num) (by omega)
    simp [h0, hb']

/-- On genuine 16-bit register words, `(hi << 16) | lo` is
`hi * 2 ^ 16 + lo` reduced to int32 range. -/
theorem combine32_eq (hi lo : Int) (hhi0 : 0 ≤ hi) (hhi : hi < 65536)
    (hlo0 : 0 ≤ lo) (hlo : lo < 65536) :
    combine32 hi lo = toInt32 (hi * 65536 + lo) := by
  unfold combine32 jsOr jsShl16
  rw [toUint32_toInt32]
  have h1 : toUint32 (hi * 65536) = hi * 65536 :=
    toUint32_of_lt _ (by positivity) (by nlinarith)
  have h2 : toUint32 lo = lo := toUint32_of_lt _ hlo0 (by omega)
  rw [h1, h2]
  have hhiN : (hi * 65536).toNat = 65536 * hi.toNat := by omega
  have hloN : lo.toNat < 2 ^ 16 := by omega
  rw [hhiN]
  have : (65536 : Nat) = 2 ^ 16 := by norm_num
  rw [this, lor_mul_pow_add _ _ _ hloN]
  congr 1
  simp only [Int.ofNat_eq_natCast]
  push_cast [Int.toNat_of_nonneg hhi0, Int.toNat_of_nonneg hlo0]
  omega

/-- ToUint32 of the int32 combination recovers the full unsigned value. -/
theorem toUint32_combine32 (hi lo : Int) (hhi0 : 0 ≤ hi) (hhi : hi < 65536)
    (hlo0 : 0 ≤ lo) (hlo : lo < 65536) :
    toUint32 (combine32 hi lo) = hi * 65536 + lo := by
  rw [combine32_eq hi lo hhi0 hhi hlo0 hlo, toUint32_toInt32]
  exact toUint32_of_lt _ (by positivity) (by nlinarith)

theorem toInt32_combine32 (hi lo : Int) (hhi0 : 0 ≤ hi) (hhi : hi < 65536)
    (hlo0 : 0 ≤ lo) (hlo : lo < 65536) :
    combine32 hi lo =
      if hi * 65536 + lo < 2147483648 then hi * 65536 + lo
      else hi * 65536 + lo - 4294967296 := by
  rw [combine32_eq hi lo hhi0 hhi hlo0 hlo]
  unfold toInt32
  rw [toUint32_of_lt _ (by positivity) (by nlinarith)]

/-- C1: the spec claims `validateAddressRange` accepts exactly the
ranges with `1 ≤ startAddress ≤ 65535`, `1 ≤ length ≤ 120` and
`startAddress + length - 1 ≤ 65535`, and in particular rejects
`startAddress < 1`. The code's lower bound is `MIN_HOLDING_REGISTER = 0`:
acceptance is exactly `0 ≤ startAddress ≤ 65535 ∧ 1 ≤ length ≤ 120 ∧
startAddress + length - 1 ≤ 65535`, and the range with
`startAddress = 0` — which the repository's own test suite expects to
be rejected with `起始地址不能小于 1` — is accepted with no errors. -/
theorem C1_zero_start_accepted :
    (∀ r : ManagedAddressRange,
      ((validateAddressRange r).isValid = true ↔
        (0 ≤ r.startAddress ∧ r.startAddress ≤ 65535 ∧ 0 < r.length ∧ r.length ≤ 120 ∧
          r.startAddress + r.length - 1 ≤ 65535))) ∧
    (validateAddressRange zeroStartRange).isValid = true ∧
    (validateAddressRange zeroStartRange).errors = [] := by
  refine ⟨fun r => ?_, by decide, by decide⟩
  simp only [validateAddressRange, MIN_HOLDING_REGISTER, MAX_HOLDING_REGISTER,
    MAX_RANGE_LENGTH, beq_iff_eq, List.length_append, apply_ite List.length,
    List.length_singleton, List.length_nil]
  split_ifs <;>
    first
      | omega
      | (simp only [false_iff, true_iff, not_and, not_lt, not_le]; omega)

/-- Membership in the pairwise double loop of `detectRangeOverlaps`:
exactly the conflict records produced by an ordered selection of two
distinct positions of the scanned list. -/
theorem mem_overlapScan : ∀ {l : List ManagedAddressRange} {c : OverlapConflict},
    c ∈ overlapScan l ↔ ∃ r1 r2, List.Sublist [r1, r2] l ∧ pairConflict r1 r2 = some c := by
  intro l
  induction l with
  | nil => intro c; simp [overlapScan]
  | cons r rest ih =>
    intro c
    simp only [overlapScan, List.mem_append, List.mem_filterMap, ih]
    constructor
    · rintro (⟨r2, hr2, hpc⟩ | ⟨r1, r2, hsub, hpc⟩)
      · exact ⟨r, r2, List.Sublist.cons₂ r (List.singleton_sublist.mpr hr2), hpc⟩
      · exact ⟨r1, r2, List.Sublist.cons r hsub, hpc⟩
    · rintro ⟨r1, r2, hsub, hpc⟩
      cases hsub with
      | cons _ h => exact Or.inr ⟨r1, r2, h, hpc⟩
      | cons₂ _ h => exact Or.inl ⟨r2, List.singleton_sublist.mp h, hpc⟩

/-- C5: `detectRangeOverlaps` reports exactly the pairs of distinct
enabled ranges whose intervals intersect (`max start ≤ min end`), with
the overlap interval attached; the documented scenario
`{start 10, len 5}` vs `{start 12, len 5}` yields the single conflict
`[12, 14]`, and disabling one of the two ranges removes it. -/
theorem C5_detectRangeOverlaps :
    (∀ (ranges : List ManagedAddressRange) (c : OverlapConflict),
      c ∈ (detectRangeOverlaps ranges).conflicts ↔
        ∃ r1 r2,
          List.Sublist [r1, r2] (ranges.filter fun range => range.enabled ≠ some false) ∧
          r1.enabled ≠ some false ∧ r2.enabled ≠ some false ∧
          max r1.startAddress r2.startAddress ≤
            min (r1.startAddress + r1.length - 1) (r2.startAddress + r2.length - 1) ∧
          c = { range1 := r1, range2 := r2
                overlapStart := max r1.startAddress r2.startAddress
                overlapEnd := min (r1.startAddress + r1.length - 1)
                  (r2.startAddress + r2.length - 1) }) ∧
    (detectRangeOverlaps [overlapRangeA, overlapRangeB]).conflicts =
      [{ range1 := overlapRangeA, range2 := overlapRangeB
         overlapStart := 12, overlapEnd := 14 }] ∧
    (detectRangeOverlaps [overlapRangeA, overlapRangeB]).hasOverlap = true ∧
    (detectRangeOverlaps
      [overlapRangeA, { overlapRangeB with enabled := some false }]).conflicts = [] := by
  refine ⟨fun ranges c => ?_, by decide, by decide, by decide⟩
  simp only [detectRangeOverlaps]
  rw [mem_overlapScan]
  constructor
  · rintro ⟨r1, r2, hsub, hpc⟩
    have h1 := List.mem_filter.mp (hsub.subset (List.mem_cons_self r1 [r2]))
    have h2 := List.mem_filter.mp (hsub.subset (by simp : r2 ∈ [r1, r2]))
    simp only [pairConflict] at hpc
    by_cases hc : max r1.startAddress r2.startAddress ≤
        min (r1.startAddress + r1.length - 1) (r2.startAddress + r2.length - 1)
    · rw [if_pos hc] at hpc
      exact ⟨r1, r2, hsub, by simpa using h1.2, by simpa using h2.2, hc,
        (Option.some.inj hpc).symm⟩
    · rw [if_neg hc] at hpc
      exact absurd hpc (by simp)
  · rintro ⟨r1, r2, hsub, _, _, hc, rfl⟩
    exact ⟨r1, r2, hsub, by simp only [pairConflict]; rw [if_pos hc]⟩

/-- C8: the spec claims that while a session runs at most one cycle is
in flight and a timer tick arriving before the previous cycle completed
is skipped. The armed `setInterval` callback starts
`performSingleCollection` unconditionally — there is no in-flight
guard — so two ticks before the first completion leave two concurrent
cycles in flight, contradicting the claimed bound. -/
theorem C8_no_single_flight_guard :
    runTimer { inFlight := 0 } [.tick, .tick] = { inFlight := 2 } ∧
    ¬ (runTimer { inFlight := 0 } [.tick, .tick]).inFlight ≤ 1 := by
  decide

/-- C6: for a `dataType` outside the five supported ones, the decoder
returns exactly one failed entry carrying the first raw word (`0` when
the input is empty, matching `rawData[0] || 0`), a zero parsed value,
the display text `Error` and the explanatory message; being a total
function, it throws for no input. -/
theorem C6_unsupported_type (ws : List Int) (dataType : String) (a : Int)
    (h : dataType ∉ ["uint16", "int16", "uint32", "int32", "float32"]) :
    parseModbusData ws dataType a =
      [{ address := a
         rawValue := ws.headD 0
         parsedValue := .num 0
         displayValue := "Error"
         dataType := dataType
         success := false
         error := some ("不支持的数据类型: " ++ dataType) }] := by
  simp only [List.mem_cons, List.mem_singleton, not_or] at h
  obtain ⟨h1, h2, h3, h4, h5, _⟩ := h
  simp [parseModbusData, h1, h2, h3, h4, h5]

/-- Witness for C6 at the repository test's input
`parseModbusData([100], 'unknown', 1000)`. -/
theorem C6_unsupported_type_witness :
    "unknown" ∉ ["uint16", "int16", "uint32", "int32", "float32"] ∧
    parseModbusData [100] "unknown" 1000 =
      [{ address := 1000, rawValue := 100, parsedValue := .num 0
         displayValue := "Error", dataType := "unknown", success := false
         error := some ("不支持的数据类型: " ++ "unknown") }] :=
  ⟨by decide, C6_unsupported_type [100] "unknown" 1000 (by decide)⟩

/-- C9 counterexample: the claim says every non-numeric value — a
string, `NaN` or `Infinity` — is returned as its literal string
representation under every format. `Infinity` is numeric for the
`isNaN` guard, falls through to the `hex` branch where the whole
`toString(16)` result is upper-cased, and comes back as `0xINFINITY`,
not `Infinity`. -/
theorem C9_infinity_hex_counterexample :
    formatDisplayValue (.num .inf) { format := .hex } = "0xINFINITY" ∧
    "0xINFINITY" ≠ "Infinity" := by
  constructor
  · rfl
  · decide

/-- C9 as amended: strings and `NaN` are returned literally under every
format and option; `Infinity`/`-Infinity` are returned literally under
`dec`, while `hex` returns its `0x`/`-0x` prefix followed by `INFINITY`
(the branch upper-cases the whole `toString(16)` result) and `bin`
returns `0b`/`-0b` followed by the literal `Infinity` (under `bin` with
`padZeros` additionally zero-padded to 16 characters); the formatter is
total, so it never throws. -/
theorem C9_amended (s : String) (p : Option Nat) (z : Option Bool) (fmt : DisplayFormat) :
    formatDisplayValue (.str s) { format := fmt, precision := p, padZeros := z } = s ∧
    formatDisplayValue (.num .nan) { format := fmt, precision := p, padZeros := z } = "NaN" ∧
    formatDisplayValue (.num .inf) { format := .dec, precision := p, padZeros := z } =
      "Infinity" ∧
    formatDisplayValue (.num .negInf) { format := .dec, precision := p, padZeros := z } =
      "-Infinity" ∧
    formatDisplayValue (.num .inf) { format := .hex, precision := p, padZeros := z } =
      "0xINFINITY" ∧
    formatDisplayValue (.num .negInf) { format := .hex, precision := p, padZeros := z } =
      "-0xINFINITY" ∧
    formatDisplayValue (.num .inf) { format := .bin, precision := p, padZeros := z } =
      (if z = some true then "0b00000000Infinity" else "0bInfinity") ∧
    formatDisplayValue (.num .negInf) { format := .bin, precision := p, padZeros := z } =
      (if z = some true then "-0b00000000Infinity" else "-0bInfinity") := by
  refine ⟨rfl, ?_, rfl, rfl, ?_, ?_, ?_, ?_⟩ <;>
    rcases z with _ | z <;>
    first
      | rfl
      | (cases z <;> rfl)

/-- Witness for C9 as amended, at a string, `NaN` and the infinities
with concrete options. -/
theorem C9_amended_witness :
    formatDisplayValue (.str "error") { format := .dec, precision := none, padZeros := none } =
      "error" ∧
    formatDisplayValue (.num .nan) { format := .dec, precision := none, padZeros := none } =
      "NaN" ∧
    formatDisplayValue (.num .inf) { format := .dec, precision := none, padZeros := none } =
      "Infinity" ∧
    formatDisplayValue (.num .negInf)
      { format := .dec, precision := none, padZeros := none } = "-Infinity" ∧
    formatDisplayValue (.num .inf) { format := .hex, precision := none, padZeros := none } =
      "0xINFINITY" ∧
    formatDisplayValue (.num .negInf)
      { format := .hex, precision := none, padZeros := none } = "-0xINFINITY" ∧
    formatDisplayValue (.num .inf) { format := .bin, precision := none, padZeros := none } =
      "0bInfinity" ∧
    formatDisplayValue (.num .negInf)
      { format := .bin, precision := none, padZeros := none } = "-0bInfinity" := by
  have h := C9_amended "error" none none DisplayFormat.dec
  exact ⟨h.1, h.2.1, h.2.2.1, h.2.2.2.1, h.2.2.2.2.1, h.2.2.2.2.2.1,
    h.2.2.2.2.2.2.1, h.2.2.2.2.2.2.2⟩

theorem uint32Loop_length (d : String) (a : Int) :
    ∀ (l : List Int) (i : Nat), (uint32Loop d a i l).length = l.length / 2
  | [], _ => rfl
  | [_], _ => by simp [uint32Loop]
  | _ :: _ :: rest, i => by
    simp only [uint32Loop, List.length_cons, uint32Loop_length d a rest (i + 2)]
    omega

theorem int32Loop_length (d : String) (a : Int) :
    ∀ (l : List Int) (i : Nat), (int32Loop d a i l).length = l.length / 2
  | [], _ => rfl
  | [_], _ => by simp [int32Loop]
  | _ :: _ :: rest, i => by
    simp only [int32Loop, List.length_cons, int32Loop_length d a rest (i + 2)]
    omega

theorem float32Loop_length (d : String) (a : Int) :
    ∀ (l : List Int) (i : Nat), (float32Loop d a i l).length = l.length / 2
  | [], _ => rfl
  | [_], _ => by simp [float32Loop]
  | _ :: _ :: rest, i => by
    simp only [float32Loop, List.length_cons, float32Loop_length d a rest (i + 2)]
    omega

theorem uint32Loop_get? (d : String) (a : Int) :
    ∀ (l : List Int) (i k : Nat),
      (uint32Loop d a i l).get? k =
        (match l.get? (2 * k), l.get? (2 * k + 1) with
          | some highWord, some lowWord =>
            some { address := a + ((i + 2 * k : Nat) : Int)
                   rawValue := combine32 highWord lowWord
                   parsedValue := .num (toUint32 (combine32 highWord lowWord) : Int)
                   displayValue := toString (toUint32 (combine32 highWord lowWord))
                   dataType := d
                   success := true
                   error := none }
          | _, _ => none)
  | [], i, k => by cases k <;> rfl
  | [_], i, k => by cases k <;> rfl
  | hi :: lo :: rest, i, 0 => by
    simp [uint32Loop]
  | hi :: lo :: rest, i, k + 1 => by
    have harith : i + 2 + 2 * k = i + 2 * (k + 1) := by omega
    have hmul : 2 * (k + 1) = 2 * k + 1 + 1 := by omega
    simp only [uint32Loop, List.get?_cons_succ, uint32Loop_get? d a rest (i + 2) k,
      harith, hmul]

theorem int32Loop_get? (d : String) (a : Int) :
    ∀ (l : List Int) (i k : Nat),
      (int32Loop d a i l).get? k =
        (match l.get? (2 * k), l.get? (2 * k + 1) with
          | some highWord, some lowWord =>
            some { address := a + ((i + 2 * k : Nat) : Int)
                   rawValue := combine32 highWord lowWord
                   parsedValue := .num (combine32 highWord lowWord : Int)
                   displayValue := toString (combine32 highWord lowWord)
                   dataType := d
                   success := true
                   error := none }
          | _, _ => none)
  | [], i, k => by cases k <;> rfl
  | [_], i, k => by cases k <;> rfl
  | hi :: lo :: rest, i, 0 => by
    simp [int32Loop]
  | hi :: lo :: rest, i, k + 1 => by
    have harith : i + 2 + 2 * k = i + 2 * (k + 1) := by omega
    have hmul : 2 * (k + 1) = 2 * k + 1 + 1 := by omega
    simp only [int32Loop, List.get?_cons_succ, int32Loop_get? d a rest (i + 2) k,
      harith, hmul]

theorem float32Loop_get? (d : String) (a : Int) :
    ∀ (l : List Int) (i k : Nat),
      (float32Loop d a i l).get? k =
        (match l.get? (2 * k), l.get? (2 * k + 1) with
          | some highWord, some lowWord =>
            some { address := a + ((i + 2 * k : Nat) : Int)
                   rawValue := combine32 highWord lowWord
                   parsedValue := decodeFloat32 (combine32 highWord lowWord)
                   displayValue := jsToFixed (decodeFloat32 (combine32 highWord lowWord)) 2
                   dataType := d
                   success := true
                   error := none }
          | _, _ => none)
  | [], i, k => by cases k <;> rfl
  | [_], i, k => by cases k <;> rfl
  | hi :: lo :: rest, i, 0 => by
    simp [float32Loop]
  | hi :: lo :: rest, i, k + 1 => by
    have harith : i + 2 + 2 * k = i + 2 * (k + 1) := by omega
    have hmul : 2 * (k + 1) = 2 * k + 1 + 1 := by omega
    simp only [float32Loop, List.get?_cons_succ, float32Loop_get? d a rest (i + 2) k,
      harith, hmul]

/-- C2: every 32-bit type consumes the word list in pairs (a trailing
unpaired word decodes to nothing), the first word of the `k`-th pair is
the high 16 bits — for `uint32` the value is the unsigned
`high * 2 ^ 16 + low`, for `int32` its two's-complement reading, and
for `float32` the entry's 32-bit pattern is `(high << 16) | low` — and
`decode([0x1234, 0x5678], 'uint32', a)` parses to `0x12345678`. -/
theorem C2_pairs_high_word_first (ws : List Int)
    (hws : ∀ w ∈ ws, 0 ≤ w ∧ w < 65536) (a : Int) :
    ((parseModbusData ws "uint32" a).length = ws.length / 2 ∧
     (parseModbusData ws "int32" a).length = ws.length / 2 ∧
     (parseModbusData ws "float32" a).length = ws.length / 2) ∧
    (∀ k hi lo, ws.get? (2 * k) = some hi → ws.get? (2 * k + 1) = some lo →
      (((parseModbusData ws "uint32" a).get? k).map (·.parsedValue) =
        some (.num ((hi * 65536 + lo : Int) : ℚ)) ∧
       ((parseModbusData ws "int32" a).get? k).map (·.parsedValue) =
        some (.num ((if hi * 65536 + lo < 2147483648 then hi * 65536 + lo
                     else hi * 65536 + lo - 4294967296 : Int) : ℚ)) ∧
       ((parseModbusData ws "float32" a).get? k).map (fun e => (e.address, e.rawValue)) =
        some (a + (2 * k : Nat), combine32 hi lo))) ∧
    ((parseModbusData [0x1234, 0x5678] "uint32" a).map (·.parsedValue) =
      [.num 0x12345678]) := by
  have hu : parseModbusData ws "uint32" a = uint32Loop "uint32" a 0 ws := by
    simp [parseModbusData]
  have hi32 : parseModbusData ws "int32" a = int32Loop "int32" a 0 ws := by
    simp [parseModbusData]
  have hf : parseModbusData ws "float32" a = float32Loop "float32" a 0 ws := by
    simp [parseModbusData]
  refine ⟨⟨?_, ?_, ?_⟩, ?_, ?_⟩
  · rw [hu, uint32Loop_length]
  · rw [hi32, int32Loop_length]
  · rw [hf, float32Loop_length]
  · intro k hi lo h2k h2k1
    have hhi := hws hi (List.get?_mem h2k)
    have hlo := hws lo (List.get?_mem h2k1)
    refine ⟨?_, ?_, ?_⟩
    · rw [hu, uint32Loop_get?, h2k, h2k1]
      simp only [Option.map_some']
      rw [toUint32_combine32 hi lo hhi.1 hhi.2 hlo.1 hlo.2]
    · rw [hi32, int32Loop_get?, h2k, h2k1]
      simp only [Option.map_some']
      rw [toInt32_combine32 hi lo hhi.1 hhi.2 hlo.1 hlo.2]
    · rw [hf, float32Loop_get?, h2k, h2k1]
      simp
  · have hval : toUint32 (combine32 4660 22136) = 305419896 := by decide
    simp [parseModbusData, uint32Loop, hval]

/-- Witness for C2 at the documented example
`decode([0x1234, 0x5678], 'uint32', 1000)`. -/
theorem C2_pairs_high_word_first_witness :
    (∀ w ∈ ([0x1234, 0x5678] : List Int), 0 ≤ w ∧ w < 65536) ∧
    (parseModbusData [0x1234, 0x5678] "uint32" 1000).map (·.parsedValue) =
      [.num 0x12345678] :=
  ⟨by decide, (C2_pairs_high_word_first [0x1234, 0x5678] (by decide) 1000).2.2⟩

theorem flatten_map_enumFrom_eq_nil {α : Type} (f : Nat → α → List String) :
    ∀ (l : List α) (n : Nat), (∀ x ∈ l, ∀ i, f i x = []) →
      ((l.enumFrom n).map fun p => f p.1 p.2).flatten = []
  | [], _, _ => rfl
  | x :: xs, n, h => by
    simp only [List.enumFrom_cons, List.map_cons, List.flatten_cons]
    rw [h x (by simp), flatten_map_enumFrom_eq_nil f xs (n + 1)
      (fun y hy i => h y (by simp [hy]) i)]
    rfl

theorem mem_flatten_map_enumFrom {α : Type} (g : Nat → α → List String) :
    ∀ (l : List α) (n : Nat) (w : String),
      w ∈ ((l.enumFrom n).map fun p => g p.1 p.2).flatten → ∃ i x, x ∈ l ∧ w ∈ g i x
  | [], _, _, h => absurd h (by simp)
  | x :: xs, n, w, h => by
    simp only [List.enumFrom_cons, List.map_cons, List.flatten_cons,
      List.mem_append] at h
    rcases h with h | h
    · exact ⟨n, x, by simp, h⟩
    · obtain ⟨i, y, hy, hw⟩ := mem_flatten_map_enumFrom g xs (n + 1) w h
      exact ⟨i, y, by simp [hy], hw⟩

theorem ne_of_head_ne (a b : Char) (as bs : List Char) (hab : a ≠ b) (s t : String)
    (hs : s.data = a :: as) (ht : t.data = b :: bs) : s ≠ t := by
  intro he
  rw [he, ht] at hs
  exact hab (List.cons.injEq .. ▸ hs).1.symm

theorem data_of_lowRateWarning (rate : ℚ) :
    (lowRateWarning rate).data = '数' :: ("据成功率偏低: ".data ++
      ((jsToFixed (.num rate) 1).data ++ "%".data)) := rfl

theorem entry_warning_ne_lowRateWarning (i : Nat) (rate : ℚ) :
    ("第" ++ toString (i + 1) ++ "条数据失败但未提供错误信息") ≠ lowRateWarning rate :=
  ne_of_head_ne '第' '数'
    ((toString (i + 1)).data ++ "条数据失败但未提供错误信息".data) _ (by decide) _ _
    rfl (data_of_lowRateWarning rate)

theorem missing_ts_ne_lowRateWarning (rate : ℚ) :
    "缺少时间戳信息" ≠ lowRateWarning rate :=
  ne_of_head_ne '缺' '数' _ _ (by decide) _ _ rfl (data_of_lowRateWarning rate)

theorem invalid_ts_ne_lowRateWarning (rate : ℚ) :
    "时间戳格式无效" ≠ lowRateWarning rate :=
  ne_of_head_ne '时' '数' _ _ (by decide) _ _ rfl (data_of_lowRateWarning rate)

theorem duration_ne_lowRateWarning (d : Int) (rate : ℚ) :
    ("读取耗时过长: " ++ toString d ++ "ms") ≠ lowRateWarning rate :=
  ne_of_head_ne '读' '数' ("取耗时过长: ".data ++ ((toString d).data ++ "ms".data)) _
    (by decide) _ _ rfl (data_of_lowRateWarning rate)

/-- C10: an empty results array gives `actualTotal = 0`, so the
computed success rate is `0`, the fatal low-success-rate error fires,
and the batch is reported invalid whatever its counts, timestamp and
duration say. -/
theorem C10_empty_batch_invalid (dateValid : String → Bool) (b : BatchReadResult)
    (h : b.results = []) :
    (validateReadResult dateValid b).isValid = false := by
  have h50 : ((0 : ℚ) < 50) = True := by norm_num
  simp [validateReadResult, actualSuccessRate, h, h50, lowRateError]

/-- Witness for C10 at a concrete empty batch. -/
theorem C10_empty_batch_invalid_witness :
    (BatchReadResult.results
      { results := [], total_count := 0, success_count := 0, failed_count := 0
        timestamp := "", duration_ms := 0 } = []) ∧
    (validateReadResult (fun _ => true)
      { results := [], total_count := 0, success_count := 0, failed_count := 0
        timestamp := "", duration_ms := 0 }).isValid = false :=
  ⟨rfl, C10_empty_batch_invalid (fun _ => true) _ rfl⟩

/-- C4 counterexample: the claim says that for a batch whose results
match its declared counts, a fatal error is reported exactly when the
success rate is below 50%. `negativeAddressBatch` matches its counts
and has a 100% success rate, yet `validateReadResult` reports
`isValid = false` because of the entry-level invalid-address error. -/
theorem C4_counterexample_negative_address :
    negativeAddressBatch.total_count = (negativeAddressBatch.results.length : Int) ∧
    negativeAddressBatch.success_count =
      ((negativeAddressBatch.results.filter (·.success)).length : Int) ∧
    negativeAddressBatch.failed_count =
      ((negativeAddressBatch.results.filter fun r => !r.success).length : Int) ∧
    (negativeAddressBatch.results.filter (·.success)).length =
      negativeAddressBatch.results.length ∧
    ¬ actualSuccessRate negativeAddressBatch < 50 ∧
    (validateReadResult (fun _ => true) negativeAddressBatch).isValid = false := by
  refine ⟨rfl, rfl, rfl, rfl, ?_, ?_⟩
  · with_unfolding_all decide
  · with_unfolding_all decide

/-- C4 as amended: for a batch whose results match its declared counts
and whose entries pass the per-entry fatal checks (every address is
nonnegative and every successful entry has a numeric raw value),
`validateReadResult` reports a fatal error exactly when the actual
success rate is below 50%; for a rate in [50%, 80%) it returns
`isValid = true` with `errors = []` and pushes the low-success-rate
warning; for a rate of at least 80% it emits neither the success-rate
error nor the success-rate warning. -/
theorem C4_amended_success_rate_bands (dateValid : String → Bool) (b : BatchReadResult)
    (hTotal : b.total_count = (b.results.length : Int))
    (hSucc : b.success_count = ((b.results.filter (·.success)).length : Int))
    (hFail : b.failed_count = ((b.results.filter fun r => !r.success).length : Int))
    (hAddr : ∀ r ∈ b.results, 0 ≤ r.address)
    (hRaw : ∀ r ∈ b.results, r.success = true → r.raw_value ≠ none) :
    ((validateReadResult dateValid b).isValid = false ↔ actualSuccessRate b < 50) ∧
    (50 ≤ actualSuccessRate b → actualSuccessRate b < 80 →
      (validateReadResult dateValid b).isValid = true ∧
      (validateReadResult dateValid b).errors = [] ∧
      lowRateWarning (actualSuccessRate b) ∈ (validateReadResult dateValid b).warnings) ∧
    (80 ≤ actualSuccessRate b →
      lowRateError (actualSuccessRate b) ∉ (validateReadResult dateValid b).errors ∧
      lowRateWarning (actualSuccessRate b) ∉ (validateReadResult dateValid b).warnings) := by
  have henum : b.results.enum = b.results.enumFrom 0 := rfl
  have hflat : ((b.results.enum.map fun p => entryErrors p.1 p.2)).flatten = [] := by
    rw [henum]
    refine flatten_map_enumFrom_eq_nil _ _ 0 fun x hx i => ?_
    have h1 := hAddr x hx
    have h2 := hRaw x hx
    simp only [entryErrors]
    rw [if_neg (by omega), if_neg (by rintro ⟨hs, hn⟩; exact h2 hs hn)]
    rfl
  have hErrors : (validateReadResult dateValid b).errors =
      (if actualSuccessRate b < 50 then [lowRateError (actualSuccessRate b)] else []) := by
    simp only [validateReadResult, hflat]
    simp
  have hIsValid : (validateReadResult dateValid b).isValid =
      ((if actualSuccessRate b < 50 then [lowRateError (actualSuccessRate b)]
        else []).length == 0) := by
    simp only [validateReadResult, hflat]
    simp
  refine ⟨?_, ?_, ?_⟩
  · rw [hIsValid]
    by_cases hr : actualSuccessRate b < 50 <;> simp [hr]
  · intro h50 h80
    have hr : ¬ actualSuccessRate b < 50 := not_lt.mpr h50
    refine ⟨by rw [hIsValid, if_neg hr]; rfl, by rw [hErrors, if_neg hr], ?_⟩
    simp only [validateReadResult]
    simp only [List.mem_append, List.mem_cons]
    rw [if_neg hr, if_pos h80]
    simp
  · intro h80
    have hr : ¬ actualSuccessRate b < 50 := by
      rw [not_lt]
      calc (50 : ℚ) ≤ 80 := by norm_num
        _ ≤ actualSuccessRate b := h80
    have hr80 : ¬ actualSuccessRate b < 80 := not_lt.mpr h80
    refine ⟨by rw [hErrors, if_neg hr]; simp, ?_⟩
    intro hmem
    simp only [validateReadResult] at hmem
    rw [if_neg (by simp [hTotal]), if_neg (by simp [hSucc]), if_neg (by simp [hFail]),
      if_neg hr, if_neg hr80] at hmem
    simp only [List.nil_append, List.append_nil, List.mem_append] at hmem
    rcases hmem with (hmem | hmem) | hmem
    · rw [henum] at hmem
      obtain ⟨i, x, _, hw⟩ := mem_flatten_map_enumFrom _ _ 0 _ hmem
      simp only [entryWarnings] at hw
      by_cases hc : x.success = false ∧ jsFalsyOptStr x.error = true
      · rw [if_pos hc] at hw
        simp only [List.mem_singleton] at hw
        exact entry_warning_ne_lowRateWarning i (actualSuccessRate b) hw.symm
      · rw [if_neg hc] at hw
        exact absurd hw (by simp)
    · by_cases hts : b.timestamp = ""
      · rw [if_pos hts] at hmem
        simp only [List.mem_singleton] at hmem
        exact missing_ts_ne_lowRateWarning (actualSuccessRate b) hmem.symm
      · rw [if_neg hts] at hmem
        by_cases hdv : dateValid b.timestamp
        · rw [if_pos hdv] at hmem
          exact absurd hmem (by simp)
        · rw [if_neg hdv] at hmem
          simp only [List.mem_singleton] at hmem
          exact invalid_ts_ne_lowRateWarning (actualSuccessRate b) hmem.symm
    · by_cases hdur : b.duration_ms > 5000
      · rw [if_pos hdur] at hmem
        simp only [List.mem_singleton] at hmem
        exact duration_ne_lowRateWarning b.duration_ms (actualSuccessRate b) hmem.symm
      · rw [if_neg hdur] at hmem
        exact absurd hmem (by simp)

/-- Witness for C4 as amended, at `fullSuccessBatch` (rate 100%). -/
theorem C4_amended_success_rate_bands_witness :
    ((validateReadResult (fun _ => true) fullSuccessBatch).isValid = false ↔
      actualSuccessRate fullSuccessBatch < 50) ∧
    (50 ≤ actualSuccessRate fullSuccessBatch → actualSuccessRate fullSuccessBatch < 80 →
      (validateReadResult (fun _ => true) fullSuccessBatch).isValid = true ∧
      (validateReadResult (fun _ => true) fullSuccessBatch).errors = [] ∧
      lowRateWarning (actualSuccessRate fullSuccessBatch) ∈
        (validateReadResult (fun _ => true) fullSuccessBatch).warnings) ∧
    (80 ≤ actualSuccessRate fullSuccessBatch →
      lowRateError (actualSuccessRate fullSuccessBatch) ∉
        (validateReadResult (fun _ => true) fullSuccessBatch).errors ∧
      lowRateWarning (actualSuccessRate fullSuccessBatch) ∉
        (validateReadResult (fun _ => true) fullSuccessBatch).warnings) :=
  C4_amended_success_rate_bands (fun _ => true) fullSuccessBatch rfl rfl rfl
    (by decide) (by decide)

/-- C3 counterexample: the claim says the cycle runs ResultValidator on
the assembled batch and appends it to the sink only if no fatal errors
are reported. `allFailedBatch` is fatally invalid (success rate 0%),
yet the cycle appends it to the output file. -/
theorem C3_counterexample_invalid_batch_persisted :
    (validateReadResult (fun _ => true) allFailedBatch).isValid = false ∧
    (performSingleCollection readySettings [] (.ok allFailedBatch) (.ok ())
        initialCollectionState).2.1 =
      [HostEvent.readRanges [] .dec,
       HostEvent.appendData (some "out.csv") allFailedBatch] := by
  constructor
  · with_unfolding_all decide
  · rfl

/-- C3 as amended: the collection cycle never consults ResultValidator —
whenever an output file is selected, every batch the transport returns
is appended to the sink unconditionally (the read request and the
append are the only host calls of the cycle), regardless of its success
rate or any other validity property. -/
theorem C3_amended_append_unconditional (settings : CollectionSettings)
    (enabledRanges : List ManagedAddressRange) (batch : BatchReadResult)
    (appendOutcome : Except String Unit) (st : CollectionState) (path : String)
    (hpath : settings.outputFilePath = some path) (hne : path ≠ "") :
    (performSingleCollection settings enabledRanges (.ok batch) appendOutcome st).2.1 =
      [HostEvent.readRanges
        (enabledRanges.map fun range => (range.startAddress, range.length))
        settings.format,
       HostEvent.appendData settings.outputFilePath batch] := by
  have hfalsy : jsFalsyOptStr settings.outputFilePath = false := by
    rw [hpath]
    simpa [jsFalsyOptStr] using hne
  cases appendOutcome <;> simp [performSingleCollection, hfalsy]

/-- Witness for C3 as amended, at the counterexample's concrete cycle. -/
theorem C3_amended_append_unconditional_witness :
    (performSingleCollection readySettings [] (.ok allFailedBatch) (.ok ())
        initialCollectionState).2.1 =
      [HostEvent.readRanges [] .dec,
       HostEvent.appendData readySettings.outputFilePath allFailedBatch] :=
  C3_amended_append_unconditional readySettings [] allFailedBatch (.ok ())
    initialCollectionState "out.csv" rfl (by decide)

/-- C7: a configuration violating a `startCollection` precondition —
no enabled range, interval below the 10 ms minimum of
`validateSettings`, or no output file selected — makes `startCollection`
report the corresponding error message and return before any host call:
no CSV initialization, no read, no append, and every state field other
than the error message (in particular `isRunning` and the timer) is
left as it was. -/
theorem C7_invalid_settings_blocks_start (addressRanges : List ManagedAddressRange)
    (settings : CollectionSettings) (initOutcome : Except String Unit)
    (readOutcome : Except String BatchReadResult) (appendOutcome : Except String Unit)
    (st : CollectionState)
    (hviol : (addressRanges.filter fun range => range.enabled ≠ some false) = [] ∨
      settings.interval < 10 ∨ jsFalsyOptStr settings.outputFilePath = true) :
    ∃ e, validateSettings (addressRanges.filter fun range => range.enabled ≠ some false)
        settings = some e ∧
      startCollection addressRanges settings initOutcome readOutcome appendOutcome st =
        ({ st with error := some e }, []) := by
  obtain ⟨e, he⟩ :
      ∃ e, validateSettings (addressRanges.filter fun range => range.enabled ≠ some false)
        settings = some e := by
    unfold validateSettings
    split_ifs with h1 h2 h3
    · exact ⟨_, rfl⟩
    · exact ⟨_, rfl⟩
    · exact ⟨_, rfl⟩
    · rcases hviol with hv | hv | hv
      · exact absurd (by rw [hv]; rfl) h1
      · exact absurd hv h2
      · exact absurd hv (by simpa using h3)
  exact ⟨e, he, by simp only [startCollection]; rw [he]⟩

/-- Witness for C7: no output file selected. -/
theorem C7_invalid_settings_blocks_start_witness :
    ∃ e, validateSettings
        (([overlapRangeA].filter fun range => range.enabled ≠ some false))
        { interval := 1000, format := .dec, maxRecords := 100, outputFilePath := none } =
        some e ∧
      startCollection [overlapRangeA]
        { interval := 1000, format := .dec, maxRecords := 100, outputFilePath := none }
        (.ok ()) (.error "unreachable") (.ok ()) initialCollectionState =
        ({ initialCollectionState with error := some e }, []) :=
  C7_invalid_settings_blocks_start [overlapRangeA]
    { interval := 1000, format := .dec, maxRecords := 100, outputFilePath := none }
    (.ok ()) (.error "unreachable") (.ok ()) initialCollectionState
    (Or.inr (Or.inr (by decide)))

/-- Sanity checks of the embedding against the repository's own test
suite: decoder boundary values, float32 special bit patterns, and the
formatter's documented outputs. -/
theorem embedding_matches_repository_tests :
    (parseModbusData [32768, 0] "int32" 1000).map (·.parsedValue) =
      [.num (-2147483648)] ∧
    (parseModbusData [0x7F80, 0x0000] "float32" 1000).map (·.parsedValue) = [.inf] ∧
    (parseModbusData [0xFF80, 0x0000] "float32" 1000).map (·.parsedValue) = [.negInf] ∧
    (parseModbusData [0x7FC0, 0x0000] "float32" 1000).map (·.parsedValue) = [.nan] ∧
    (parseModbusData [0x8000, 0x0000] "float32" 1000).map (·.parsedValue) = [.negZero] ∧
    (parseModbusData [0xFFFF, 0xFFFF] "uint32" 0).map (·.parsedValue) =
      [.num 4294967295] ∧
    (parseModbusData [0xFFFF, 0xFFFF] "uint32" 0).map (·.rawValue) = [-1] ∧
    (parseModbusData [0x1234, 0x5678, 0xABCD] "uint32" 1000).length = 1 ∧
    formatDisplayValue (.num (.num 255)) { format := .hex } = "0xFF" ∧
    formatDisplayValue (.num (.num (-255))) { format := .hex } = "-0xFF" ∧
    formatDisplayValue (.num (.num 5)) { format := .bin } = "0b101" ∧
    formatDisplayValue (.num (.num 15)) { format := .hex, padZeros := some true } =
      "0x000F" ∧
    formatDisplayValue (.num (.num 5)) { format := .bin, padZeros := some true } =
      "0b0000000000000101" ∧
    formatDisplayValue (.num .nan) { format := .hex } = "NaN" ∧
    formatDisplayValue (.str "123abc") { format := .hex } = "123abc" ∧
    (validateReadResult (fun _ => true) sampleBatch).isValid = true ∧
    (validateReadResult (fun _ => true) sampleBatch).errors = [] ∧
    (validateReadResult (fun _ => true) sampleBatch).warnings =
      ["数据成功率偏低: 50.0%"] := by
  refine ⟨by decide, by decide, by decide, by decide, by decide, by decide, by decide,
    by decide, by decide, by decide, by decide, by decide, by decide, by decide,
    by decide, ?_, ?_, ?_⟩ <;> with_unfolding_all decide

end Modbus



